import Mathlib

/-!
Verification development for the bidirpc repository: a bidirectional RPC
runtime over a single authenticated stream. The definitions below are a
shallow embedding of the Go sources (message.go, negotiation.go, the
Connection, Server, AutoClient, Context and decodeInto files); machine
integers are modelled as `Int` with explicit wrap-around where Go's int64
arithmetic can overflow, Go maps as association lists with unique keys,
channels as explicit buffers, and goroutine interleavings as schedules over
small step functions.
-/

/-! ## Message types (message.go, negotiation.go) -/

def AuthType : String := "auth"
def AuthOKType : String := "auth_ok"
def AuthErrType : String := "auth_error"
def RequestType : String := "request"
def ResponseType : String := "response"
def AuthRequestType : String := "auth_request"
def AuthFailType : String := "auth_fail"

/-- Dynamic Go values as they appear in `map[string]any` params and results.
JSON numbers decode to float64; a float64 is an exact rational, so `vFloat`
carries a `ℚ`. `vInt` models a Go `int` placed in a params map by a local
caller (never produced by JSON decoding). -/
inductive GoValue where
  | vNull
  | vBool (b : Bool)
  | vFloat (q : ℚ)
  | vInt (n : Int)
  | vString (s : String)
  | vMap (fields : List (String × GoValue))
  | vArr (elems : List GoValue)

/-- RPCMessage (message.go): the self-describing RPC frame. `error = none`
models a nil *string pointer. -/
structure RPCMessage where
  type : String
  id : String := ""
  method : String := ""
  params : List (String × GoValue) := []
  result : Option GoValue := none
  error : Option String := none
  errorCode : Int := 0

/-- NegotiationMessage (negotiation.go): the handshake frame, sent and
received without compression. -/
structure NegotiationMessage where
  type : String
  clientID : String := ""
  authCode : String := ""
  useCompression : Bool := false

/-! ## Association-list operations standing for Go maps.
Go map assignment overwrites the key; `insertKey` erases then conses so keys
stay unique. `delete(m, k)` is `eraseKey`. -/

def eraseKey {β : Type} (l : List (String × β)) (k : String) : List (String × β) :=
  l.filter (fun p => p.1 ≠ k)

def insertKey {β : Type} (l : List (String × β)) (k : String) (v : β) :
    List (String × β) :=
  (k, v) :: eraseKey l k

def lookupKey {β : Type} (l : List (String × β)) (k : String) : Option β :=
  ((l.find? (fun p => p.1 = k)).map (·.2))

theorem lookupKey_insert_self {β : Type} (l : List (String × β)) (k : String) (v : β) :
    lookupKey (insertKey l k v) k = some v := by
  simp [lookupKey, insertKey, List.find?]

theorem lookupKey_erase_self {β : Type} (l : List (String × β)) (k : String) :
    lookupKey (eraseKey l k) k = none := by
  induction l with
  | nil => rfl
  | cons p t ih =>
    by_cases h : p.1 = k
    · rw [show eraseKey (p :: t) k = eraseKey t k by simp [eraseKey, h]]
      exact ih
    · rw [show eraseKey (p :: t) k = p :: eraseKey t k by simp [eraseKey, h]]
      rw [show lookupKey (p :: eraseKey t k) k = lookupKey (eraseKey t k) k by
        simp [lookupKey, List.find?, h]]
      exact ih

/-! ## Context (the Context used by Connection.handleMessage: fields
conn, clientID, id, params; its `GetParamInt` handles only float64 and
returns the default otherwise). -/

structure Context where
  clientID : String := ""
  id : String := ""
  params : List (String × GoValue) := []

/-- Go's float64→int conversion truncates toward zero. -/
def truncToInt (q : ℚ) : Int :=
  if 0 ≤ q then q.floor else q.ceil

/-- Context.GetParamInt: `val, ok := ctx.params[name]; if !ok return def;
f, ok := val.(float64); if !ok return def; return int(f)`. -/
def Context.GetParamInt (ctx : Context) (name : String) (def' : Int) : Int :=
  match lookupKey ctx.params name with
  | none => def'
  | some v =>
    match v with
    | GoValue.vFloat q => truncToInt q
    | _ => def'

/-- Context.GetParamString: returns the value only when it is a string. -/
def Context.GetParamString (ctx : Context) (name : String) (def' : String) : String :=
  match lookupKey ctx.params name with
  | some (GoValue.vString s) => s
  | _ => def'

/-! ## AutoClient backoff (autoclient source, `backoffDuration`).
`base << (attempt - 1)` shifts an int64 `time.Duration`; the shift wraps
modulo 2^64 in two's complement, which `wrap64` makes explicit. -/

def wrap64 (n : Int) : Int :=
  ((n + 2 ^ 63) % 2 ^ 64) - 2 ^ 63

def timeSecond : Int := 1000000000
def timeMinute : Int := 60 * timeSecond

/-- backoffDuration: `base := 2s; delay := base << (attempt-1);
if delay > 3*time.Minute { return 3*time.Minute }; return delay`. -/
def backoffDuration (attempt : Int) : Int :=
  let base := 2 * timeSecond
  let delay := wrap64 (base * 2 ^ (attempt - 1).toNat)
  if delay > 3 * timeMinute then 3 * timeMinute else delay

/-- Written from the spec's words: the reconnect delay claimed by the spec,
`min(2^(attempt−1) · 2s, 3min)`, with no overflow. -/
def specBackoffDuration (attempt : Int) : Int :=
  min (2 * timeSecond * 2 ^ (attempt - 1).toNat) (3 * timeMinute)

/-! ## Connection: pending table and message dispatch.
`c.pending` maps a correlation id to the single-slot channel of the caller
that registered it; each `Call`/`CallAsync` makes one fresh channel per
fresh uuid, so a channel is identified by its id and a delivery `ch <- msg`
is recorded as the pair `(id, msg)`. -/

structure ConnState where
  pending : List String
  handlers : List String
  clientID : String := ""

/-- The effects of handling one decoded frame: the resulting state, the
frames handed to `Send`, the methods dispatched on fresh goroutines
(`go fn(ctx)`), and the inbox deliveries (`ch <- msg`, keyed by id). -/
structure HandleResult where
  state : ConnState
  sent : List RPCMessage
  spawned : List String
  delivered : List (String × RPCMessage)

/-- Context.WriteError builds the error response frame for the request id. -/
def writeErrorFrame (id : String) (code : Int) (message : String) : RPCMessage :=
  { type := ResponseType, id := id, error := some message, errorCode := code }

/-- Connection.handleMessage: Response → deliver to the pending entry's
channel and delete the entry under `pendingMu` (one critical section),
dropping silently when the id is absent; Request → run the handler on a
fresh goroutine when registered, else `ctx.WriteError(404, "method not
found")`; other types are logged and ignored. -/
def Connection.handleMessage (c : ConnState) (msg : RPCMessage) : HandleResult :=
  if msg.type = ResponseType then
    if msg.id ∈ c.pending then
      { state := { c with pending := c.pending.filter (fun k => k ≠ msg.id) },
        sent := [], spawned := [], delivered := [(msg.id, msg)] }
    else
      { state := c, sent := [], spawned := [], delivered := [] }
  else if msg.type = RequestType then
    if msg.method ∈ c.handlers then
      { state := c, sent := [], spawned := [msg.method], delivered := [] }
    else
      { state := c, sent := [writeErrorFrame msg.id 404 "method not found"],
        spawned := [], delivered := [] }
  else
    { state := c, sent := [], spawned := [], delivered := [] }

/-- The read loop's per-frame processing of the frames decoded before the
decode error that ends the loop. -/
def Connection.readLoopProcess (c : ConnState) : List RPCMessage → HandleResult
  | [] => { state := c, sent := [], spawned := [], delivered := [] }
  | m :: rest =>
    let r := Connection.handleMessage c m
    let r2 := Connection.readLoopProcess r.state rest
    { state := r2.state, sent := r.sent ++ r2.sent,
      spawned := r.spawned ++ r2.spawned, delivered := r.delivered ++ r2.delivered }

/-- Connection.connClosed: the body in the source is empty (a placeholder
comment), so it is the identity on the connection's state. -/
def Connection.connClosed (c : ConnState) : ConnState := c

/-- Connection.readLoop: process decoded frames until the decode error ends
the loop, then run the deferred `connClosed`. -/
def Connection.readLoop (c : ConnState) (decoded : List RPCMessage) : HandleResult :=
  let r := Connection.readLoopProcess c decoded
  { r with state := Connection.connClosed r.state }

/-- The send-failure path shared by Connection.Call and Connection.CallAsync:
register the fresh id in the pending table, and when `c.Send(req)` fails,
delete the entry again (then return the send error / invoke the callback
with it). -/
def Connection.callOnSendFailure (c : ConnState) (id : String) : ConnState :=
  let registered := { c with pending := id :: c.pending }
  { registered with pending := registered.pending.filter (fun k => k ≠ id) }

/-! ## Server registry (server source with heartbeat). -/

def DefaultHeartbeatTimeout : Int := 40 * timeSecond

/-- The server's two sub-maps guarded by `clientsMu`: clientID → connection
(connections are abstract handles) and clientID → last ping time (ns). -/
structure ServerState where
  clients : List (String × Nat)
  lastPing : List (String × Int)

/-- The result of Server.GetClientByID: the returned connection and the
registry state after the query's side effects. -/
structure ClientQueryResult where
  conn : Option Nat
  state : ServerState

/-- Server.GetClientByID: under `clientsMu`, return nil when the client is
unknown; when its last ping is missing or older than 40s, delete it from
both maps and return nil; otherwise return the connection. -/
def Server.GetClientByID (s : ServerState) (now : Int) (clientID : String) :
    ClientQueryResult :=
  match lookupKey s.clients clientID with
  | none => { conn := none, state := s }
  | some conn =>
    match lookupKey s.lastPing clientID with
    | none =>
      { conn := none,
        state := { clients := eraseKey s.clients clientID,
                   lastPing := eraseKey s.lastPing clientID } }
    | some lastPing =>
      if now - lastPing > DefaultHeartbeatTimeout then
        { conn := none,
          state := { clients := eraseKey s.clients clientID,
                     lastPing := eraseKey s.lastPing clientID } }
      else
        { conn := some conn, state := s }

/-- The cleanup goroutine's removal (after its poll loop breaks): delete the
client from both maps under one `clientsMu` critical section. -/
def Server.cleanupDisconnect (s : ServerState) (clientID : String) : ServerState :=
  { clients := eraseKey s.clients clientID, lastPing := eraseKey s.lastPing clientID }

/-- The externally determined outcomes of one Server.ServeConn run: the
received negotiation frame (none = receive error), the embedder predicate's
verdict, whether sending AuthOK succeeds, the current time and the new
connection's handle. `EnableCompression` in the source always returns nil,
so it has no failure parameter. -/
structure ServeConnEnv where
  recvNeg : Option NegotiationMessage
  authOK : Bool
  sendAuthOkOk : Bool
  now : Int
  conn : Nat

/-- Server.ServeConn's effect on the registry: reject bad negotiation or
failed auth untouched; on auth success record `lastPing[clientID] = now`
(before AuthOK is sent, and outside `clientsMu`); abort if the AuthOK send
fails; otherwise insert the connection into `clients` under `clientsMu`. -/
def Server.ServeConn (s : ServerState) (env : ServeConnEnv) : ServerState :=
  match env.recvNeg with
  | none => s
  | some neg =>
    if neg.type ≠ AuthRequestType then s
    else if env.authOK = false then s
    else
      let s1 : ServerState :=
        { s with lastPing := insertKey s.lastPing neg.clientID env.now }
      if env.sendAuthOkOk = false then s1
      else { s1 with clients := insertKey s1.clients neg.clientID env.conn }

/-! ## AutoClient: the atomic slot holding the current connection.
`activeConn` is `atomic.Value`; `connectOnce` stores a (non-nil) connection
on success and is the only write to the slot in the source. A failed
connection attempt and the termination of a connection's read loop (whose
`connClosed` is empty) leave the slot untouched; there is no write of nil
anywhere (`atomic.Value` cannot even store nil). -/

structure AutoClientState where
  activeConn : Option Nat

/-- The events that can touch (or could be expected to touch) the slot. -/
inductive ACEvent where
  | connectSuccess (conn : Nat)
  | connectFail
  | readLoopTerminated

def AutoClient.step (s : AutoClientState) : ACEvent → AutoClientState
  | ACEvent.connectSuccess conn => { activeConn := some conn }
  | ACEvent.connectFail => s
  | ACEvent.readLoopTerminated => s

def AutoClient.run (s : AutoClientState) : List ACEvent → AutoClientState
  | [] => s
  | e :: rest => AutoClient.run (AutoClient.step s e) rest

/-- AutoClient.IsConnected: `ac.activeConn.Load() != nil`. -/
def AutoClient.IsConnected (s : AutoClientState) : Bool :=
  s.activeConn.isSome

/-- What a call primitive on the auto-client does with the slot. -/
inductive ACCallResult where
  | notConnected
  | delegatedTo (conn : Nat)

/-- AutoClient.Call: load the slot; if empty fail with "client is not
connected", else delegate to the stored connection. -/
def AutoClient.Call (s : AutoClientState) : ACCallResult :=
  match s.activeConn with
  | none => ACCallResult.notConnected
  | some c => ACCallResult.delegatedTo c

/-- AutoClient.CallWithResult: same load-check-delegate shape. -/
def AutoClient.CallWithResult (s : AutoClientState) : ACCallResult :=
  match s.activeConn with
  | none => ACCallResult.notConnected
  | some c => ACCallResult.delegatedTo c

/-- AutoClient.CallAsync: same load-check-delegate shape. -/
def AutoClient.CallAsync (s : AutoClientState) : ACCallResult :=
  match s.activeConn with
  | none => ACCallResult.notConnected
  | some c => ACCallResult.delegatedTo c

/-- AutoClient.CallAsyncWithResult: same load-check-delegate shape. -/
def AutoClient.CallAsyncWithResult (s : AutoClientState) : ACCallResult :=
  match s.activeConn with
  | none => ACCallResult.notConnected
  | some c => ACCallResult.delegatedTo c

/-! ## Interleaving of one caller's wait with the read loop.
The caller of `Call`/`CallAsync` has registered a fresh id with a buffered
channel of capacity one and sent the request; it now waits in a `select`
over the inbox, the timeout timer and (for CallAsync) the cancel signal.
The read loop consumes the incoming frames. Each schedule entry is one
atomic step of the Go code: one `select` commitment, one `pendingMu`
critical section, or one frame handled by the read loop. -/

/-- What the `select` delivered to the caller. -/
inductive CallOutcome where
  | result (v : Option GoValue)
  | rpcError (code : Int) (msg : String)
  | timeoutErr
  | cancelled

/-- The outcome Call/CallAsync derives from a message read off the inbox:
`msg.Error != nil` means a structured error, else the result. -/
def outcomeOf (m : RPCMessage) : CallOutcome :=
  match m.error with
  | some e => CallOutcome.rpcError m.errorCode e
  | none => CallOutcome.result m.result

/-- waiting: blocked in the select; observedPendingDelete: the select has
committed and handed the caller its outcome, but the timeout/cancel path has
not yet deleted the pending entry; done: finished. -/
inductive CallerPhase where
  | waiting
  | observedPendingDelete
  | done
deriving DecidableEq

/-- The joint state of one caller's id and the read loop. `registered` is
`id ∈ c.pending`; `inbox` the buffered channel's contents; `inboxWrites`
counts the read loop's `ch <- msg` writes for this id; `observed` the
outcomes the caller has received; `incoming` the frames the read loop has
yet to decode. -/
structure CallRace where
  callId : String
  registered : Bool
  inbox : List RPCMessage
  inboxWrites : Nat
  phase : CallerPhase
  observed : List CallOutcome
  incoming : List RPCMessage

/-- net: the read loop handles the next frame (deliver-and-remove in one
`pendingMu` critical section, or drop). recv/timer/cancel: the caller's
select commits to that branch. del: the timeout/cancel path's `pendingMu`
critical section deleting the entry (for CallAsync the deferred delete). -/
inductive RaceStep where
  | net
  | recv
  | timer
  | cancel
  | del

def raceStep (s : CallRace) : RaceStep → CallRace
  | RaceStep.net =>
    match s.incoming with
    | [] => s
    | m :: rest =>
      if m.type = ResponseType ∧ m.id = s.callId ∧ s.registered = true then
        { s with incoming := rest, inbox := s.inbox ++ [m],
                 inboxWrites := s.inboxWrites + 1, registered := false }
      else
        { s with incoming := rest }
  | RaceStep.recv =>
    match s.phase, s.inbox with
    | CallerPhase.waiting, m :: rest =>
      { s with inbox := rest, observed := s.observed ++ [outcomeOf m],
               phase := CallerPhase.observedPendingDelete }
    | _, _ => s
  | RaceStep.timer =>
    if s.phase = CallerPhase.waiting then
      { s with observed := s.observed ++ [CallOutcome.timeoutErr],
               phase := CallerPhase.observedPendingDelete }
    else s
  | RaceStep.cancel =>
    if s.phase = CallerPhase.waiting then
      { s with observed := s.observed ++ [CallOutcome.cancelled],
               phase := CallerPhase.observedPendingDelete }
    else s
  | RaceStep.del =>
    if s.phase = CallerPhase.observedPendingDelete then
      { s with registered := false, phase := CallerPhase.done }
    else s

def raceRun (s : CallRace) : List RaceStep → CallRace
  | [] => s
  | st :: rest => raceRun (raceStep s st) rest

/-- The state right after Call/CallAsync has registered the id and sent the
request: entry present, inbox empty, caller entering the select. -/
def initCall (cid : String) (incoming : List RPCMessage) : CallRace :=
  { callId := cid, registered := true, inbox := [], inboxWrites := 0,
    phase := CallerPhase.waiting, observed := [], incoming := incoming }

/-! ## Result adapter (decodeInto).
Go runtime types as far as the adapter inspects them. A params/result value
decoded from JSON has type `map[string]any` for objects; destinations are
caller-supplied typed pointers. -/

inductive RType where
  | tNil
  | tBool
  | tFloat64
  | tInt
  | tString
  | tMapStrAny
  | tSliceAny
  | tStruct (name : String)
deriving DecidableEq

/-- `reflect.TypeOf(src)` on the dynamic values the adapter sees. -/
def typeOfGoValue : GoValue → RType
  | GoValue.vNull => RType.tNil
  | GoValue.vBool _ => RType.tBool
  | GoValue.vFloat _ => RType.tFloat64
  | GoValue.vInt _ => RType.tInt
  | GoValue.vString _ => RType.tString
  | GoValue.vMap _ => RType.tMapStrAny
  | GoValue.vArr _ => RType.tSliceAny

/-- The caller-supplied destination `result any`: a nil interface, a
non-pointer value, a typed nil pointer, or a non-nil pointer to a slot of
element type `elemTy` currently holding `cur`. -/
inductive DestPtr where
  | nilAny
  | nonPtr (ty : RType)
  | nilPtr (elemTy : RType)
  | ptr (elemTy : RType) (cur : GoValue)

/-- What decodeInto did: an adapter error, a direct assignment of the
source, a mapstructure decode of a string-keyed map (json tag, weakly typed
input) whose outcome is the library's, or a JSON re-encode/decode whose
outcome is the library's. -/
inductive DecodeResult where
  | errNilResult
  | errNotPointer
  | assigned (v : GoValue)
  | mapDecoded (written : GoValue)
  | mapDecodeFailed (e : String)
  | jsonRoundTripped (written : GoValue)
  | jsonRoundTripFailed (e : String)

/-- decodeInto, parametric in the two libraries it delegates to:
`msDecode m ty` is mapstructure's decode of map `m` into a destination of
type `ty` (TagName "json", WeaklyTypedInput true), `jsonRT v ty` the
`json.Marshal`/`json.Unmarshal` round-trip. The Go control flow in order:
nil check, pointer check, direct type-equality assignment, map path, JSON
fallback. -/
def decodeInto
    (msDecode : List (String × GoValue) → RType → Except String GoValue)
    (jsonRT : GoValue → RType → Except String GoValue)
    (result : DestPtr) (src : GoValue) : DecodeResult :=
  match result with
  | DestPtr.nilAny => DecodeResult.errNilResult
  | DestPtr.nonPtr _ => DecodeResult.errNotPointer
  | DestPtr.nilPtr _ => DecodeResult.errNotPointer
  | DestPtr.ptr elemTy _ =>
    if typeOfGoValue src = elemTy then
      DecodeResult.assigned src
    else
      match src with
      | GoValue.vMap m =>
        match msDecode m elemTy with
        | Except.ok v => DecodeResult.mapDecoded v
        | Except.error e => DecodeResult.mapDecodeFailed e
      | _ =>
        match jsonRT src elemTy with
        | Except.ok v => DecodeResult.jsonRoundTripped v
        | Except.error e => DecodeResult.jsonRoundTripFailed e

/-! The spec's description of the adapter (§4.9) is a list of rules applied
in order; `specResultAdapter` is written from those words as a first-match
cascade over optional rules, to be compared with the Go control flow. -/

/-- Spec rule 1: "If source's runtime type equals the destination's element
type, assign directly." Applies or does not. -/
def specRuleAssign (elemTy : RType) (src : GoValue) : Option DecodeResult :=
  if typeOfGoValue src = elemTy then some (DecodeResult.assigned src) else none

/-- Spec rule 2: "Else if source is a structural mapping, decode it into the
destination using a map-to-struct decoder"; a decoder failure surfaces as an
adapter error. -/
def specRuleStructural
    (msDecode : List (String × GoValue) → RType → Except String GoValue)
    (elemTy : RType) (src : GoValue) : Option DecodeResult :=
  match src with
  | GoValue.vMap m =>
    match msDecode m elemTy with
    | Except.ok v => some (DecodeResult.mapDecoded v)
    | Except.error e => some (DecodeResult.mapDecodeFailed e)
  | _ => none

/-- Spec rule 3: "Else, round-trip the source through JSON
encoding/decoding"; a decode failure surfaces as an adapter error. -/
def specRuleRoundTrip
    (jsonRT : GoValue → RType → Except String GoValue)
    (elemTy : RType) (src : GoValue) : DecodeResult :=
  match jsonRT src elemTy with
  | Except.ok v => DecodeResult.jsonRoundTripped v
  | Except.error e => DecodeResult.jsonRoundTripFailed e

/-- Written from the spec's words (§4.9 Result Adapter): "nil destination,
non-pointer destination … surface as an adapter error", then the first
applicable of rules 1, 2, 3 in that order. -/
def specResultAdapter
    (msDecode : List (String × GoValue) → RType → Except String GoValue)
    (jsonRT : GoValue → RType → Except String GoValue)
    (result : DestPtr) (src : GoValue) : DecodeResult :=
  match result with
  | DestPtr.nilAny => DecodeResult.errNilResult
  | DestPtr.nonPtr _ => DecodeResult.errNotPointer
  | DestPtr.nilPtr _ => DecodeResult.errNotPointer
  | DestPtr.ptr elemTy _ =>
    ((specRuleAssign elemTy src).orElse
      (fun _ => specRuleStructural msDecode elemTy src)).getD
      (specRuleRoundTrip jsonRT elemTy src)

/-! ## Helper lemmas -/

theorem handleMessage_pending_mono (c : ConnState) (m : RPCMessage) (k : String) :
    k ∈ (Connection.handleMessage c m).state.pending → k ∈ c.pending := by
  unfold Connection.handleMessage
  by_cases h1 : m.type = ResponseType
  · by_cases h2 : m.id ∈ c.pending
    · simp only [h1, h2, if_true]
      intro hk
      exact (List.mem_filter.mp hk).1
    · simp [h1, h2]
  · by_cases h3 : m.type = RequestType
    · by_cases h4 : m.method ∈ c.handlers <;>
        simp [h1, h3, h4, RequestType, ResponseType]
    · simp [h1, h3]

theorem handleMessage_delivered_mem (c : ConnState) (m : RPCMessage)
    (p : String × RPCMessage) :
    p ∈ (Connection.handleMessage c m).delivered → p.1 ∈ c.pending := by
  unfold Connection.handleMessage
  by_cases h1 : m.type = ResponseType
  · by_cases h2 : m.id ∈ c.pending
    · simp only [h1, h2, if_true]
      intro hp
      rcases List.mem_singleton.mp hp with h
      rw [h]
      exact h2
    · simp [h1, h2]
  · by_cases h3 : m.type = RequestType
    · by_cases h4 : m.method ∈ c.handlers <;>
        simp [h1, h3, h4, RequestType, ResponseType]
    · simp [h1, h3]

theorem readLoopProcess_no_delivery_of_absent (id : String) :
    ∀ (msgs : List RPCMessage) (c : ConnState), id ∉ c.pending →
      ∀ p ∈ (Connection.readLoopProcess c msgs).delivered, p.1 ≠ id := by
  intro msgs
  induction msgs with
  | nil =>
    intro c _ p hp
    simp [Connection.readLoopProcess] at hp
  | cons m rest ih =>
    intro c hc p hp
    unfold Connection.readLoopProcess at hp
    simp only [List.mem_append] at hp
    rcases hp with hp | hp
    · intro h
      apply hc
      rw [← h]
      exact handleMessage_delivered_mem c m p hp
    · exact ih (Connection.handleMessage c m).state
        (fun hmem => hc (handleMessage_pending_mono c m id hmem)) p hp

theorem raceRun_append (s : CallRace) (a b : List RaceStep) :
    raceRun s (a ++ b) = raceRun (raceRun s a) b := by
  induction a generalizing s with
  | nil => rfl
  | cons st rest ih =>
    simp only [List.cons_append, raceRun]
    exact ih (raceStep s st)

/-- The caller's select observes at most once: observations happen only on
the waiting→observed transition and no step returns to waiting. -/
def raceInv (s : CallRace) : Prop :=
  (s.phase = CallerPhase.waiting → s.observed = []) ∧ s.observed.length ≤ 1

theorem raceStep_preserves_inv (s : CallRace) (st : RaceStep) :
    raceInv s → raceInv (raceStep s st) := by
  intro ⟨hw, hlen⟩
  cases st with
  | net =>
    cases hin : s.incoming with
    | nil =>
      have hstep : raceStep s RaceStep.net = s := by simp [raceStep, hin]
      rw [hstep]
      exact ⟨hw, hlen⟩
    | cons m rest =>
      by_cases hc : m.type = ResponseType ∧ m.id = s.callId ∧ s.registered = true
      · constructor
        · intro hp
          simp only [raceStep, hin, if_pos hc] at hp ⊢
          exact hw hp
        · simpa [raceStep, hin, if_pos hc] using hlen
      · constructor
        · intro hp
          simp only [raceStep, hin, if_neg hc] at hp ⊢
          exact hw hp
        · simpa [raceStep, hin, if_neg hc] using hlen
  | recv =>
    cases hp : s.phase with
    | waiting =>
      cases hib : s.inbox with
      | nil => simpa [raceStep, hp, hib] using ⟨hw, hlen⟩
      | cons m rest =>
        constructor
        · intro hcontra
          simp [raceStep, hp, hib] at hcontra
        · simp [raceStep, hp, hib, hw hp]
    | observedPendingDelete => simpa [raceStep, hp] using ⟨hw, hlen⟩
    | done => simpa [raceStep, hp] using ⟨hw, hlen⟩
  | timer =>
    by_cases hp : s.phase = CallerPhase.waiting
    · constructor
      · intro hcontra
        simp [raceStep, hp] at hcontra
      · simp [raceStep, hp, hw hp]
    · simpa [raceStep, hp] using ⟨hw, hlen⟩
  | cancel =>
    by_cases hp : s.phase = CallerPhase.waiting
    · constructor
      · intro hcontra
        simp [raceStep, hp] at hcontra
      · simp [raceStep, hp, hw hp]
    · simpa [raceStep, hp] using ⟨hw, hlen⟩
  | del =>
    by_cases hp : s.phase = CallerPhase.observedPendingDelete
    · constructor
      · intro hcontra
        simp [raceStep, hp] at hcontra
      · simpa [raceStep, hp] using hlen
    · simpa [raceStep, hp] using ⟨hw, hlen⟩

theorem raceRun_preserves_inv (sched : List RaceStep) (s : CallRace) :
    raceInv s → raceInv (raceRun s sched) := by
  induction sched generalizing s with
  | nil => exact fun h => h
  | cons st rest ih =>
    intro h
    exact ih (raceStep s st) (raceStep_preserves_inv s st h)

/-- Once the id is out of the pending table it stays out, and the read loop
never writes the inbox again (late responses are dropped silently). -/
theorem raceStep_unregistered_stable (s : CallRace) (st : RaceStep) :
    s.registered = false →
    (raceStep s st).registered = false ∧ (raceStep s st).inboxWrites = s.inboxWrites := by
  intro hreg
  cases st with
  | net =>
    cases hin : s.incoming with
    | nil =>
      have hstep : raceStep s RaceStep.net = s := by simp [raceStep, hin]
      rw [hstep]
      exact ⟨hreg, rfl⟩
    | cons m rest =>
      have hc : ¬(m.type = ResponseType ∧ m.id = s.callId ∧ s.registered = true) := by
        intro ⟨_, _, hr⟩
        rw [hreg] at hr
        cases hr
      simp [raceStep, hin, if_neg hc, hreg]
  | recv =>
    cases hp : s.phase <;> cases hib : s.inbox <;> simp [raceStep, hp, hib, hreg]
  | timer => by_cases hp : s.phase = CallerPhase.waiting <;> simp [raceStep, hp, hreg]
  | cancel => by_cases hp : s.phase = CallerPhase.waiting <;> simp [raceStep, hp, hreg]
  | del =>
    by_cases hp : s.phase = CallerPhase.observedPendingDelete <;> simp [raceStep, hp, hreg]

theorem raceRun_unregistered_stable (sched : List RaceStep) (s : CallRace) :
    s.registered = false →
    (raceRun s sched).registered = false ∧ (raceRun s sched).inboxWrites = s.inboxWrites := by
  induction sched generalizing s with
  | nil => exact fun h => ⟨h, rfl⟩
  | cons st rest ih =>
    intro h
    obtain ⟨h1, h2⟩ := raceStep_unregistered_stable s st h
    obtain ⟨h3, h4⟩ := ih (raceStep s st) h1
    exact ⟨h3, h4.trans h2⟩

/-! ## Claims -/

/-- Concrete failing input for the disconnection claim: a connection with
one pending call for id "x" whose read loop hits a decode error at once. -/
def c1Conn : ConnState := { pending := ["x"], handlers := [] }

/-- C1: the claim says that when the read loop terminates, every entry then
present in the pending table is completed with a disconnection error. The
code does not do this: `connClosed`, the only thing the loop's deferred
cleanup runs, has an empty body, so after termination the entry for "x" is
still in the pending table and no delivery of any kind was made for it; its
caller keeps waiting until its own timeout expires. -/
theorem c1_readLoop_pending_not_completed :
    (Connection.readLoop c1Conn []).state.pending = ["x"]
    ∧ (Connection.readLoop c1Conn []).delivered = []
    ∧ (Connection.readLoop c1Conn []).sent = [] :=
  ⟨rfl, rfl, rfl⟩

/-- The response frame the peer would send for the caller's id "x". -/
def c2RespMsg : RPCMessage := { type := ResponseType, id := "x" }

/-- The caller's state right after registering id "x" and sending the
request, with that response already queued at the read loop. -/
def c2Race0 : CallRace := initCall "x" [c2RespMsg]

/-- C2 counterexample: the claim's last conjunct says that after a caller
has received a timeout no further inbox write occurs for its id. Schedule
the timer commitment of the caller's select first (the caller has now
received the timeout error), then one read-loop step before the caller's
`pendingMu` delete: the entry is still registered, so the read loop writes
the response into the abandoned buffered inbox — an inbox write after the
caller received its outcome. -/
theorem c2_counterexample :
    (raceRun c2Race0 [RaceStep.timer]).observed = [CallOutcome.timeoutErr]
    ∧ (raceRun c2Race0 [RaceStep.timer]).inboxWrites = 0
    ∧ (raceRun c2Race0 [RaceStep.timer, RaceStep.net]).inboxWrites = 1 :=
  ⟨rfl, rfl, rfl⟩

/-- C2 (amended): delivery and removal happen in one critical section (a
read-loop step that writes the inbox also removes the entry in that same
step), a response for an id that is no longer pending is dropped silently
with no inbox write, and every caller observes at most one completion; what
does not hold is the absence of inbox writes after the caller's select has
committed — between that commitment and the caller's removal of the entry
the read loop may still write the (never observed) buffered inbox. -/
theorem c2_at_most_once_observed (cid : String) (incoming : List RPCMessage)
    (pre post : List RaceStep) :
    (raceRun (initCall cid incoming) (pre ++ post)).observed.length ≤ 1
    ∧ ((raceRun (initCall cid incoming) pre).registered = false →
        (raceRun (initCall cid incoming) (pre ++ post)).inboxWrites
          = (raceRun (initCall cid incoming) pre).inboxWrites)
    ∧ (∀ s : CallRace, (raceStep s RaceStep.net).inboxWrites ≠ s.inboxWrites →
        (raceStep s RaceStep.net).registered = false) := by
  refine ⟨?_, ?_, ?_⟩
  · have h0 : raceInv (initCall cid incoming) := by
      constructor
      · intro _
        rfl
      · simp [initCall]
    exact (raceRun_preserves_inv (pre ++ post) (initCall cid incoming) h0).2
  · intro hreg
    rw [raceRun_append]
    exact (raceRun_unregistered_stable post (raceRun (initCall cid incoming) pre) hreg).2
  · intro s hne
    cases hin : s.incoming with
    | nil =>
      exfalso
      apply hne
      simp [raceStep, hin]
    | cons m rest =>
      by_cases hc : m.type = ResponseType ∧ m.id = s.callId ∧ s.registered = true
      · simp [raceStep, hin, if_pos hc]
      · exfalso
        apply hne
        simp [raceStep, hin, if_neg hc]

/-- C3: GetClientByID returns a connection exactly when the client is
registered and its last recorded ping is at most 40 seconds old; when the
client is registered but the last ping is missing or older than 40 seconds,
the query deletes the client from both the connection map and the last-ping
map (in the same critical section) and returns nil. -/
theorem c3_getClientByID_heartbeat (s : ServerState) (now : Int) (id : String) :
    ((Server.GetClientByID s now id).conn.isSome = true ↔
      ∃ cn t, lookupKey s.clients id = some cn ∧ lookupKey s.lastPing id = some t ∧
        now - t ≤ DefaultHeartbeatTimeout)
    ∧ ((lookupKey s.clients id).isSome = true →
        (∀ t, lookupKey s.lastPing id = some t → now - t > DefaultHeartbeatTimeout) →
        (Server.GetClientByID s now id).conn = none
        ∧ lookupKey (Server.GetClientByID s now id).state.clients id = none
        ∧ lookupKey (Server.GetClientByID s now id).state.lastPing id = none) := by
  constructor
  · cases hc : lookupKey s.clients id with
    | none =>
      simp only [Server.GetClientByID, hc]
      constructor
      · intro h
        cases h
      · intro ⟨cn, t, hcn, _⟩
        cases hcn
    | some conn =>
      cases hp : lookupKey s.lastPing id with
      | none =>
        simp only [Server.GetClientByID, hc, hp]
        constructor
        · intro h
          cases h
        · intro ⟨cn, t, _, hpt, _⟩
          cases hpt
      | some lastPing =>
        by_cases hstale : now - lastPing > DefaultHeartbeatTimeout
        · simp only [Server.GetClientByID, hc, hp, if_pos hstale]
          constructor
          · intro h
            cases h
          · intro ⟨cn, t, _, hpt, hle⟩
            exfalso
            cases hpt
            omega
        · simp only [Server.GetClientByID, hc, hp, if_neg hstale]
          constructor
          · intro _
            exact ⟨conn, lastPing, rfl, rfl, by omega⟩
          · intro _
            rfl
  · intro hreg hstale
    cases hc : lookupKey s.clients id with
    | none =>
      rw [hc] at hreg
      cases hreg
    | some conn =>
      cases hp : lookupKey s.lastPing id with
      | none =>
        simp only [Server.GetClientByID, hc, hp]
        exact ⟨trivial, lookupKey_erase_self s.clients id, lookupKey_erase_self s.lastPing id⟩
      | some lastPing =>
        have hgt : now - lastPing > DefaultHeartbeatTimeout := hstale lastPing hp
        simp only [Server.GetClientByID, hc, hp, if_pos hgt]
        exact ⟨trivial, lookupKey_erase_self s.clients id, lookupKey_erase_self s.lastPing id⟩

/-- C4 counterexample: at attempt 34 the Go shift `2s << 33` overflows
int64 and wraps to a negative duration, so the computed delay is negative
instead of the spec's `min(2^33·2s, 3min) = 3min`. -/
theorem c4_backoff_overflow_counterexample :
    backoffDuration 34 ≠ specBackoffDuration 34
    ∧ backoffDuration 34 < 0
    ∧ specBackoffDuration 34 = 3 * timeMinute := by
  refine ⟨?_, ?_, ?_⟩ <;> decide

/-- C4 (amended): for attempts 1 ≤ n ≤ 33 the delay equals
`min(2^(n−1)·2s, 3min)`, is bounded by 3 minutes, and is non-decreasing in
the attempt number; from attempt 34 on the int64 shift overflows, so the
bound and monotonicity stop at 33. -/
theorem c4_backoff_bounded_monotone (n : Int) (h1 : 1 ≤ n) (h2 : n ≤ 33) :
    backoffDuration n = specBackoffDuration n
    ∧ backoffDuration n ≤ 3 * timeMinute
    ∧ (n < 33 → backoffDuration n ≤ backoffDuration (n + 1)) := by
  interval_cases n <;> exact ⟨by decide, by decide, by decide⟩

/-- Witness for C4's amended theorem at attempt 3. -/
theorem c4_backoff_witness :
    (1 : Int) ≤ 3 ∧ (3 : Int) ≤ 33
    ∧ (backoffDuration 3 = specBackoffDuration 3
       ∧ backoffDuration 3 ≤ 3 * timeMinute
       ∧ ((3 : Int) < 33 → backoffDuration 3 ≤ backoffDuration (3 + 1))) :=
  ⟨by decide, by decide, c4_backoff_bounded_monotone 3 (by decide) (by decide)⟩

/-- A request context whose parameter "x" carries the string "42". -/
def c5Ctx : Context := { params := [("x", GoValue.vString "42")] }

/-- C5 counterexample: the claim says a string parameter value is parsed by
numeric conversion, so `GetParamInt` on the string "42" with default 7
would have to return 42; the accessor used by the connection's dispatch
only handles float64 and returns the default 7 for a string. -/
theorem c5_string_not_parsed_counterexample :
    Context.GetParamInt c5Ctx "x" 7 = 7
    ∧ Context.GetParamInt c5Ctx "x" 7 ≠ 42 :=
  ⟨rfl, by decide⟩

/-- C5 (amended): a float64 (JSON numeric) parameter converts to the
integer by truncation toward zero; a missing parameter, or one of any other
type — including a string — yields the supplied default. -/
theorem c5_getParamInt_coercion (params : List (String × GoValue))
    (name : String) (d : Int) :
    (lookupKey params name = none →
      Context.GetParamInt { params := params } name d = d)
    ∧ (∀ q, lookupKey params name = some (GoValue.vFloat q) →
        Context.GetParamInt { params := params } name d = truncToInt q)
    ∧ (∀ v, lookupKey params name = some v → (∀ q, v ≠ GoValue.vFloat q) →
        Context.GetParamInt { params := params } name d = d) := by
  refine ⟨?_, ?_, ?_⟩
  · intro h
    simp [Context.GetParamInt, h]
  · intro q h
    simp [Context.GetParamInt, h]
  · intro v h hnf
    cases v with
    | vFloat q => exact absurd rfl (hnf q)
    | vNull => simp [Context.GetParamInt, h]
    | vBool b => simp [Context.GetParamInt, h]
    | vInt n => simp [Context.GetParamInt, h]
    | vString s => simp [Context.GetParamInt, h]
    | vMap fields => simp [Context.GetParamInt, h]
    | vArr elems => simp [Context.GetParamInt, h]

/-- An authenticating negotiation frame from client "c". -/
def c6Neg : NegotiationMessage :=
  { type := AuthRequestType, clientID := "c", authCode := "a" }

/-- A ServeConn run in which auth succeeds but sending AuthOK fails. -/
def c6EnvLeak : ServeConnEnv :=
  { recvNeg := some c6Neg, authOK := true, sendAuthOkOk := false, now := 5, conn := 1 }

/-- A fully successful ServeConn run for client "c". -/
def c6EnvOK : ServeConnEnv :=
  { recvNeg := some c6Neg, authOK := true, sendAuthOkOk := true, now := 5, conn := 1 }

/-- The empty server registry. -/
def c6Server0 : ServerState := { clients := [], lastPing := [] }

/-- C6 counterexample: ServeConn records `lastPing[clientID] = now` before
sending AuthOK and inserts into `clients` only afterwards, so when the
AuthOK send fails the run ends in a reachable state whose lastPing map has
the key "c" while its clients map does not — the two key sets differ. -/
theorem c6_keyset_mismatch_counterexample :
    (lookupKey (Server.ServeConn c6Server0 c6EnvLeak).lastPing "c").isSome = true
    ∧ (lookupKey (Server.ServeConn c6Server0 c6EnvLeak).clients "c").isSome = false := by
  refine ⟨?_, ?_⟩ <;> decide

/-- C6 (amended): every removal deletes the client from both maps in the
same critical section (shown for the cleanup path), and a fully successful
ServeConn run ends with the client in both maps; but the two inserts are
not atomic — lastPing is written before AuthOK is even sent — so between
them, and permanently when the AuthOK send fails, the key sets differ. -/
theorem c6_registry_removal_and_insert (s : ServerState) (id : String)
    (env : ServeConnEnv) (neg : NegotiationMessage)
    (h1 : env.recvNeg = some neg) (h2 : neg.type = AuthRequestType)
    (h3 : env.authOK = true) (h4 : env.sendAuthOkOk = true) :
    (lookupKey (Server.cleanupDisconnect s id).clients id = none
     ∧ lookupKey (Server.cleanupDisconnect s id).lastPing id = none)
    ∧ (lookupKey (Server.ServeConn s env).clients neg.clientID = some env.conn
       ∧ lookupKey (Server.ServeConn s env).lastPing neg.clientID = some env.now) := by
  constructor
  · exact ⟨lookupKey_erase_self s.clients id, lookupKey_erase_self s.lastPing id⟩
  · have hs : Server.ServeConn s env =
        { clients := insertKey s.clients neg.clientID env.conn,
          lastPing := insertKey s.lastPing neg.clientID env.now } := by
      simp [Server.ServeConn, h1, h2, h3, h4]
    rw [hs]
    exact ⟨lookupKey_insert_self s.clients neg.clientID env.conn,
           lookupKey_insert_self s.lastPing neg.clientID env.now⟩

/-- Witness for C6's amended theorem: the successful run for client "c". -/
theorem c6_registry_witness :
    c6EnvOK.recvNeg = some c6Neg ∧ c6Neg.type = AuthRequestType
    ∧ c6EnvOK.authOK = true ∧ c6EnvOK.sendAuthOkOk = true
    ∧ ((lookupKey (Server.cleanupDisconnect c6Server0 "z").clients "z" = none
        ∧ lookupKey (Server.cleanupDisconnect c6Server0 "z").lastPing "z" = none)
       ∧ (lookupKey (Server.ServeConn c6Server0 c6EnvOK).clients c6Neg.clientID
            = some c6EnvOK.conn
          ∧ lookupKey (Server.ServeConn c6Server0 c6EnvOK).lastPing c6Neg.clientID
            = some c6EnvOK.now)) :=
  ⟨rfl, rfl, rfl, rfl,
   c6_registry_removal_and_insert c6Server0 "z" c6EnvOK c6Neg rfl rfl rfl rfl⟩

/-- C7: both Call and CallAsync register the fresh id and, when the send
fails, delete the entry again before returning the send error (the
sequencing of `Connection.callOnSendFailure`); afterwards the id is not in
the pending table, and however many frames the read loop still processes,
no inbox delivery ever happens for that id. -/
theorem c7_send_failure_no_delivery (c : ConnState) (id : String)
    (msgs : List RPCMessage) :
    id ∉ (Connection.callOnSendFailure c id).pending
    ∧ ∀ p ∈ (Connection.readLoopProcess (Connection.callOnSendFailure c id) msgs).delivered,
        p.1 ≠ id := by
  have hnotin : id ∉ (Connection.callOnSendFailure c id).pending := by
    simp [Connection.callOnSendFailure]
  exact ⟨hnotin,
    readLoopProcess_no_delivery_of_absent id msgs (Connection.callOnSendFailure c id) hnotin⟩

/-- C8: for an inbound Request whose method has no registered handler, the
read loop emits exactly one Response frame carrying the request's id, error
code 404 and message "method not found", and the connection keeps
operating: the state is unchanged and the remaining frames are processed
exactly as they would have been without the unknown-method request. -/
theorem c8_unknown_method_404 (c : ConnState) (msg : RPCMessage)
    (rest : List RPCMessage)
    (hty : msg.type = RequestType) (hm : msg.method ∉ c.handlers) :
    (Connection.readLoopProcess c (msg :: rest)).sent
      = writeErrorFrame msg.id 404 "method not found"
          :: (Connection.readLoopProcess c rest).sent
    ∧ (Connection.readLoopProcess c (msg :: rest)).state
        = (Connection.readLoopProcess c rest).state
    ∧ (Connection.readLoopProcess c (msg :: rest)).delivered
        = (Connection.readLoopProcess c rest).delivered
    ∧ (Connection.readLoopProcess c (msg :: rest)).spawned
        = (Connection.readLoopProcess c rest).spawned := by
  have hr : Connection.handleMessage c msg =
      { state := c, sent := [writeErrorFrame msg.id 404 "method not found"],
        spawned := [], delivered := [] } := by
    simp [Connection.handleMessage, hty, hm, RequestType, ResponseType]
  refine ⟨?_, ?_, ?_, ?_⟩ <;>
    simp [Connection.readLoopProcess, hr]

/-- A connection knowing only the handler "Echo", and a request for the
unregistered method "Nope". -/
def c8Conn : ConnState := { pending := [], handlers := ["Echo"] }
def c8Req : RPCMessage := { type := RequestType, id := "7", method := "Nope" }

/-- Witness for C8 at a concrete unknown-method request. -/
theorem c8_unknown_method_witness :
    c8Req.type = RequestType ∧ c8Req.method ∉ c8Conn.handlers
    ∧ (Connection.readLoopProcess c8Conn [c8Req]).sent
        = writeErrorFrame c8Req.id 404 "method not found"
            :: (Connection.readLoopProcess c8Conn []).sent :=
  ⟨rfl, by decide, (c8_unknown_method_404 c8Conn c8Req [] rfl (by decide)).1⟩

/-- C9: decodeInto coincides with the spec's ordered procedure: adapter
errors for a nil or non-pointer destination, then the first applicable of
direct assignment on equal runtime type, structural map decoding, and the
JSON round-trip, with underlying decode failures surfacing as errors —
for every choice of the two underlying decoding libraries. -/
theorem c9_decodeInto_follows_spec
    (msDecode : List (String × GoValue) → RType → Except String GoValue)
    (jsonRT : GoValue → RType → Except String GoValue)
    (result : DestPtr) (src : GoValue) :
    decodeInto msDecode jsonRT result src
      = specResultAdapter msDecode jsonRT result src := by
  cases result with
  | nilAny => rfl
  | nonPtr ty => rfl
  | nilPtr elemTy => rfl
  | ptr elemTy cur =>
    by_cases h : typeOfGoValue src = elemTy
    · simp [decodeInto, specResultAdapter, specRuleAssign, h, Option.orElse]
    · cases src with
      | vMap m =>
        cases hms : msDecode m elemTy with
        | ok v =>
          simp [decodeInto, specResultAdapter, specRuleAssign, specRuleStructural,
            h, hms, Option.orElse]
        | error e =>
          simp [decodeInto, specResultAdapter, specRuleAssign, specRuleStructural,
            h, hms, Option.orElse]
      | vNull =>
        cases hj : jsonRT GoValue.vNull elemTy with
        | ok v =>
          simp [decodeInto, specResultAdapter, specRuleAssign, specRuleStructural,
            specRuleRoundTrip, h, hj, Option.orElse]
        | error e =>
          simp [decodeInto, specResultAdapter, specRuleAssign, specRuleStructural,
            specRuleRoundTrip, h, hj, Option.orElse]
      | vBool b =>
        cases hj : jsonRT (GoValue.vBool b) elemTy with
        | ok v =>
          simp [decodeInto, specResultAdapter, specRuleAssign, specRuleStructural,
            specRuleRoundTrip, h, hj, Option.orElse]
        | error e =>
          simp [decodeInto, specResultAdapter, specRuleAssign, specRuleStructural,
            specRuleRoundTrip, h, hj, Option.orElse]
      | vFloat q =>
        cases hj : jsonRT (GoValue.vFloat q) elemTy with
        | ok v =>
          simp [decodeInto, specResultAdapter, specRuleAssign, specRuleStructural,
            specRuleRoundTrip, h, hj, Option.orElse]
        | error e =>
          simp [decodeInto, specResultAdapter, specRuleAssign, specRuleStructural,
            specRuleRoundTrip, h, hj, Option.orElse]
      | vInt n =>
        cases hj : jsonRT (GoValue.vInt n) elemTy with
        | ok v =>
          simp [decodeInto, specResultAdapter, specRuleAssign, specRuleStructural,
            specRuleRoundTrip, h, hj, Option.orElse]
        | error e =>
          simp [decodeInto, specResultAdapter, specRuleAssign, specRuleStructural,
            specRuleRoundTrip, h, hj, Option.orElse]
      | vString str =>
        cases hj : jsonRT (GoValue.vString str) elemTy with
        | ok v =>
          simp [decodeInto, specResultAdapter, specRuleAssign, specRuleStructural,
            specRuleRoundTrip, h, hj, Option.orElse]
        | error e =>
          simp [decodeInto, specResultAdapter, specRuleAssign, specRuleStructural,
            specRuleRoundTrip, h, hj, Option.orElse]
      | vArr elems =>
        cases hj : jsonRT (GoValue.vArr elems) elemTy with
        | ok v =>
          simp [decodeInto, specResultAdapter, specRuleAssign, specRuleStructural,
            specRuleRoundTrip, h, hj, Option.orElse]
        | error e =>
          simp [decodeInto, specResultAdapter, specRuleAssign, specRuleStructural,
            specRuleRoundTrip, h, hj, Option.orElse]

/-- C10: once the atomic slot holds a connection, no event — a failed
reconnect attempt, the stored connection's read loop terminating — ever
clears it: IsConnected stays true and all four call primitives delegate to
the currently stored (possibly dead) connection instead of failing with the
not-connected error. -/
theorem c10_slot_never_cleared (s : AutoClientState) (c0 : Nat)
    (evs : List ACEvent) (h : s.activeConn = some c0) :
    AutoClient.IsConnected (AutoClient.run s evs) = true
    ∧ ∃ c, (AutoClient.run s evs).activeConn = some c
        ∧ AutoClient.Call (AutoClient.run s evs) = ACCallResult.delegatedTo c
        ∧ AutoClient.CallWithResult (AutoClient.run s evs) = ACCallResult.delegatedTo c
        ∧ AutoClient.CallAsync (AutoClient.run s evs) = ACCallResult.delegatedTo c
        ∧ AutoClient.CallAsyncWithResult (AutoClient.run s evs)
            = ACCallResult.delegatedTo c := by
  induction evs generalizing s c0 with
  | nil =>
    refine ⟨?_, c0, h, ?_, ?_, ?_, ?_⟩ <;>
      simp [AutoClient.run, AutoClient.IsConnected, AutoClient.Call,
        AutoClient.CallWithResult, AutoClient.CallAsync,
        AutoClient.CallAsyncWithResult, h]
  | cons e rest ih =>
    cases e with
    | connectSuccess conn =>
      exact ih ({ activeConn := some conn }) conn rfl
    | connectFail =>
      exact ih s c0 h
    | readLoopTerminated =>
      exact ih s c0 h

/-- The auto-client after its first successful handshake stored connection
1, followed by that connection's read loop ending and a failed reconnect. -/
def c10Client : AutoClientState := { activeConn := some 1 }
def c10Events : List ACEvent := [ACEvent.readLoopTerminated, ACEvent.connectFail]

/-- Witness for C10 after a read-loop termination and a failed reconnect. -/
theorem c10_slot_witness :
    c10Client.activeConn = some 1
    ∧ (AutoClient.IsConnected (AutoClient.run c10Client c10Events) = true
       ∧ ∃ c, (AutoClient.run c10Client c10Events).activeConn = some c
           ∧ AutoClient.Call (AutoClient.run c10Client c10Events)
               = ACCallResult.delegatedTo c
           ∧ AutoClient.CallWithResult (AutoClient.run c10Client c10Events)
               = ACCallResult.delegatedTo c
           ∧ AutoClient.CallAsync (AutoClient.run c10Client c10Events)
               = ACCallResult.delegatedTo c
           ∧ AutoClient.CallAsyncWithResult (AutoClient.run c10Client c10Events)
               = ACCallResult.delegatedTo c) :=
  ⟨rfl, c10_slot_never_cleared c10Client 1 c10Events rfl⟩
